import Mathlib

/-!
Formal model of the rancher-fip-manager-webhook admission and certificate
lifecycle logic, translated from the Go sources (pkg/service, pkg/config,
pkg/scheduler).  Machine integers are modelled as `Int`/`Nat`, byte slices as
`List Nat`, Go maps as association lists, and the Kubernetes API calls as
explicit lookup functions / environment records.  The fragment of the Go
standard library `net` package that the webhook uses (`ParseIP`, `ParseCIDR`,
`IPNet.Contains`, `IP.To4`, `bytes.Compare`) is modelled below following the
Go implementation (IPv4 addresses parse to their 16-byte IPv4-in-IPv6 form,
dotted fields reject leading zeros, `To4` recognises the 16-byte mapped
prefix, comparisons are lexicographic on bytes).
-/

namespace Rfm

/-- Go `bytes.Compare`: lexicographic comparison of byte slices, returning
-1, 0 or 1 (a shorter slice that is a prefix of the other is smaller). -/
def bytesCompare : List Nat → List Nat → Int
  | [], [] => 0
  | [], _ :: _ => -1
  | _ :: _, [] => 1
  | a :: as, b :: bs => if a < b then -1 else if b < a then 1 else bytesCompare as bs

/-- Split a character list on a single separator character (the semantics of
Go `strings.Split` for a one-character separator). -/
def splitOnChar (sep : Char) : List Char → List (List Char)
  | [] => [[]]
  | c :: rest =>
      if c = sep then [] :: splitOnChar sep rest
      else match splitOnChar sep rest with
        | h :: t => (c :: h) :: t
        | [] => [[c]]

/-- Split a character list on the two-character separator `::` (leftmost,
non-overlapping, the semantics of Go `strings.Split`). -/
def splitOnColonColon : List Char → List (List Char)
  | [] => [[]]
  | ':' :: ':' :: rest => [] :: splitOnColonColon rest
  | c :: rest =>
      match splitOnColonColon rest with
      | h :: t => (c :: h) :: t
      | [] => [[c]]

/-- Value of one hexadecimal digit, `none` for a non-hex character. -/
def hexDigitVal (c : Char) : Option Nat :=
  if c.isDigit then some (c.toNat - 48)
  else if 'a' ≤ c ∧ c ≤ 'f' then some (c.toNat - 87)
  else if 'A' ≤ c ∧ c ≤ 'F' then some (c.toNat - 55)
  else none

/-- One dotted-decimal IPv4 field as accepted by Go `net.ParseIP`:
non-empty, decimal digits only, no leading zero, value at most 255. -/
def parseV4Field (cs : List Char) : Option Nat :=
  if cs = [] then none
  else if ¬ cs.all Char.isDigit then none
  else if 1 < cs.length ∧ cs.head? = some '0' then none
  else
    let v := cs.foldl (fun acc c => acc * 10 + (c.toNat - 48)) 0
    if v ≤ 255 then some v else none

/-- Dotted-decimal IPv4 literal: exactly four valid fields.  Result is the
4-byte form. -/
def parseV4Chars (cs : List Char) : Option (List Nat) :=
  match (splitOnChar '.' cs).mapM parseV4Field with
  | some fields => if fields.length = 4 then some fields else none
  | none => none

/-- One 16-bit hexadecimal group of an IPv6 literal: 1 to 4 hex digits. -/
def parseHexGroup (cs : List Char) : Option Nat :=
  if cs = [] ∨ 4 < cs.length then none
  else match cs.mapM hexDigitVal with
    | none => none
    | some ds => some (ds.foldl (fun acc d => acc * 16 + d) 0)

/-- Big-endian byte pair of a 16-bit group. -/
def groupBytes (g : Nat) : List Nat := [g / 256, g % 256]

/-- Colon-separated field list of an IPv6 literal where the final field may
be an embedded dotted-decimal IPv4 address (Go allows the embedded form only
in the final position).  Returns the byte expansion. -/
def parseV6Tail : List (List Char) → Option (List Nat)
  | [] => some []
  | [last] =>
      if last.contains '.' then parseV4Chars last
      else (parseHexGroup last).map groupBytes
  | f :: rest =>
      match parseHexGroup f, parseV6Tail rest with
      | some g, some bs => some (groupBytes g ++ bs)
      | _, _ => none

/-- IPv6 literal as accepted by Go `net.ParseIP`: at most one `::`, 16-bit
hex groups, optional embedded IPv4 tail, zones rejected.  Result is the
16-byte form. -/
def parseV6Chars (cs : List Char) : Option (List Nat) :=
  if cs.contains '%' then none
  else match splitOnColonColon cs with
  | [whole] =>
      match parseV6Tail (splitOnChar ':' whole) with
      | some bs => if bs.length = 16 then some bs else none
      | none => none
  | [l, r] =>
      let lres : Option (List Nat) :=
        if l = [] then some [] else
        match (splitOnChar ':' l).mapM parseHexGroup with
        | some gs => some (gs.map groupBytes).flatten
        | none => none
      let rres : Option (List Nat) :=
        if r = [] then some [] else parseV6Tail (splitOnChar ':' r)
      match lres, rres with
      | some lb, some rb =>
          if lb.length + rb.length ≤ 14 then
            some (lb ++ List.replicate (16 - lb.length - rb.length) 0 ++ rb)
          else none
      | _, _ => none
  | _ => none

/-- The 12-byte prefix Go uses for IPv4-in-IPv6 addresses. -/
def v4InV6 : List Nat := [0, 0, 0, 0, 0, 0, 0, 0, 0, 0, 255, 255]

/-- Go `net.ParseIP`: dispatch on the first `.` / `:` / `%` character; a
dotted-decimal IPv4 literal yields its 16-byte IPv4-in-IPv6 form, an IPv6
literal its 16-byte form, anything else (including zones) `nil`. -/
def parseIP (s : String) : Option (List Nat) :=
  match s.data.find? (fun c => (c == '.') || (c == ':') || (c == '%')) with
  | some c =>
      if c = '.' then (parseV4Chars s.data).map (fun b => v4InV6 ++ b)
      else if c = ':' then parseV6Chars s.data
      else none
  | none => none

/-- Go `IP.To4`: the 4-byte form of an IPv4 address (4-byte slices as-is,
16-byte slices with the IPv4-in-IPv6 prefix stripped), `nil` otherwise. -/
def to4 (ip : List Nat) : Option (List Nat) :=
  if ip.length = 4 then some ip
  else if ip.length = 16 ∧ ip.take 12 = v4InV6 then some (ip.drop 12)
  else none

/-- Go `net.CIDRMask`: a byte mask of `bytesLen` bytes with `ones` leading
one bits. -/
def cidrMask (ones bytesLen : Nat) : List Nat :=
  (List.range bytesLen).map (fun j =>
    let k := min 8 (ones - 8 * j)
    256 - 2 ^ (8 - k))

/-- Go `net.IPNet`: a network address together with its byte mask. -/
structure IPNet where
  IP : List Nat
  Mask : List Nat
  deriving DecidableEq

/-- Go `net.ParseCIDR`: address part before the first `/`, decimal mask
length, network address masked.  IPv4 addresses keep their 4-byte form. -/
def parseCIDR (s : String) : Option (List Nat × IPNet) :=
  match splitOnChar '/' s.data with
  | [addr, mask] =>
      if mask = [] ∨ ¬ mask.all Char.isDigit then none
      else
        let n := mask.foldl (fun acc c => acc * 10 + (c.toNat - 48)) 0
        let ipo : Option (List Nat) :=
          match addr.find? (fun c => (c == '.') || (c == ':') || (c == '%')) with
          | some c =>
              if c = '.' then parseV4Chars addr
              else if c = ':' then parseV6Chars addr
              else none
          | none => none
        match ipo with
        | none => none
        | some ip =>
            if n ≤ 8 * ip.length then
              let m := cidrMask n ip.length
              some (ip, ⟨List.zipWith Nat.land ip m, m⟩)
            else none
  | _ => none

/-- Helper of Go `IPNet.Contains`: normalise the network number and mask to
matching 4- or 16-byte forms. -/
def networkNumberAndMask (n : IPNet) : Option (List Nat × List Nat) :=
  let ipo : Option (List Nat) :=
    match to4 n.IP with
    | some x => some x
    | none => if n.IP.length = 16 then some n.IP else none
  match ipo with
  | none => none
  | some ip =>
      if n.Mask.length = 4 then (if ip.length = 4 then some (ip, n.Mask) else none)
      else if n.Mask.length = 16 then
        (if ip.length = 4 then some (ip, n.Mask.drop 12) else some (ip, n.Mask))
      else none

/-- Go `IPNet.Contains`: the candidate address agrees with the network
number on every masked byte. -/
def containsIP (n : IPNet) (ip : List Nat) : Bool :=
  let x := match to4 ip with | some t => t | none => ip
  match networkNumberAndMask n with
  | none => decide (x.length = 0)
  | some (nn, m) =>
      decide (x.length = nn.length) &&
      decide (List.zipWith Nat.land nn m = List.zipWith Nat.land x m)

/-- Family-aware range test of `validateFloatingIP` / exclude checking of
`validateFloatingIPPool`: when the candidate and both bounds have 4-byte
forms they are compared as IPv4, otherwise the slices are compared as-is.
`true` means the candidate lies outside the inclusive range. -/
def ipOutsideRange (req s e : List Nat) : Bool :=
  match to4 req, to4 s, to4 e with
  | some r4, some s4, some e4 =>
      decide (bytesCompare r4 s4 < 0) || decide (bytesCompare r4 e4 > 0)
  | _, _, _ =>
      decide (bytesCompare req s < 0) || decide (bytesCompare req e > 0)

/-- Ordering test of `validateFloatingIPPool`: start strictly after end,
compared on 4-byte forms when both are IPv4 and as-is otherwise. -/
def startAfterEnd (s e : List Nat) : Bool :=
  match to4 s, to4 e with
  | some s4, some e4 => decide (bytesCompare s4 e4 > 0)
  | _, _ => decide (bytesCompare s e > 0)

/-- Pool range of a `FloatingIPPool` spec: start/end literals and the
exclude list, all strings. -/
structure Pool where
  Start : String
  End : String
  Exclude : List String
  deriving DecidableEq

/-- IP configuration of a `FloatingIPPool` spec. -/
structure IPConfig where
  Subnet : String
  Pool : Pool
  deriving DecidableEq

/-- Spec of a `FloatingIPPool`. -/
structure FloatingIPPoolSpec where
  IPConfig : IPConfig
  deriving DecidableEq

/-- Status of a `FloatingIPPool`: the allocation map (IP to owner) and the
available-address counter. -/
structure FloatingIPPoolStatus where
  Allocated : List (String × String)
  Available : Int
  deriving DecidableEq

/-- The `FloatingIPPool` custom resource, as read by the validators. -/
structure FloatingIPPool where
  Spec : FloatingIPPoolSpec
  Status : FloatingIPPoolStatus
  deriving DecidableEq

/-- Per-pool usage entry of a `FloatingIPProjectQuota` status. -/
structure FipInfo where
  Used : Int
  deriving DecidableEq

/-- Spec of a `FloatingIPProjectQuota`: pool name to quota limit. -/
structure FloatingIPProjectQuotaSpec where
  FloatingIPQuota : List (String × Int)
  deriving DecidableEq

/-- Status of a `FloatingIPProjectQuota`: pool name to usage entry. -/
structure FloatingIPProjectQuotaStatus where
  FloatingIPs : List (String × FipInfo)
  deriving DecidableEq

/-- The `FloatingIPProjectQuota` custom resource. -/
structure FloatingIPProjectQuota where
  Spec : FloatingIPProjectQuotaSpec
  Status : FloatingIPProjectQuotaStatus
  deriving DecidableEq

/-- Object metadata: the webhook only reads the labels. -/
structure ObjectMeta where
  Labels : List (String × String)
  deriving DecidableEq

/-- Spec of the `FloatingIP` resource under validation: target pool and
optional requested address. -/
structure FloatingIPSpec where
  FloatingIPPool : String
  IPAddr : Option String
  deriving DecidableEq

/-- The `FloatingIP` resource under validation. -/
structure FloatingIP where
  ObjectMeta : ObjectMeta
  Spec : FloatingIPSpec
  deriving DecidableEq

/-- The admission response: the request UID it echoes, the decision, and
the optional `Result.Message` (set on every deny). -/
structure AdmissionResponse where
  UID : String
  Allowed : Bool
  Result : Option String
  deriving DecidableEq

/-- The incoming admission request (only the UID is read). -/
structure AdmissionRequest where
  UID : String
  deriving DecidableEq

/-- The admission review envelope. -/
structure AdmissionReview where
  Request : AdmissionRequest
  Response : Option AdmissionResponse
  deriving DecidableEq

/-- Outcome of a dynamic-client `Get` followed by
`FromUnstructured` conversion: lookup error, conversion error, or the typed
object. -/
inductive GetResult (α : Type) where
  | err
  | badData
  | ok (val : α)
  deriving DecidableEq

/-- Deny response with a message, echoing the request UID (the record the Go
code builds at every failing check). -/
def denyR (uid msg : String) : AdmissionResponse :=
  { UID := uid, Allowed := false, Result := some msg }

/-- Project identifier of a request: the fixed label, empty string when the
label is absent (the Go map read's zero value). -/
def projectIDOf (fip : FloatingIP) : String :=
  (fip.ObjectMeta.Labels.lookup "rancher.k8s.binbash.org/project-name").getD ""

/-- Used count of a quota object for a pool, 0 when the status entry is
absent. -/
def quotaUsage (plbc : FloatingIPProjectQuota) (poolName : String) : Int :=
  match plbc.Status.FloatingIPs.lookup poolName with
  | some fipInfo => fipInfo.Used
  | none => 0

/-- Quota-enforcement tail of `validateFloatingIP` (source lines following
the 2-second settle delay): project id from the fixed label, quota object
lookup, per-pool quota entry, used count (0 when the status entry is
absent), strict `used < quota` test. -/
def quotaStage (getQuota : String → GetResult FloatingIPProjectQuota)
    (ar : AdmissionReview) (fip : FloatingIP) : AdmissionResponse :=
  match getQuota (projectIDOf fip) with
  | .err => denyR ar.Request.UID ("failed to get floatingipprojectquota for project " ++
      projectIDOf fip)
  | .badData => denyR ar.Request.UID "internal server error: failed to process floatingipprojectquota"
  | .ok plbc =>
    match plbc.Spec.FloatingIPQuota.lookup fip.Spec.FloatingIPPool with
    | none => denyR ar.Request.UID ("no quota defined for floatingippool " ++
        fip.Spec.FloatingIPPool ++ " in project " ++ projectIDOf fip)
    | some quota =>
      if quotaUsage plbc fip.Spec.FloatingIPPool ≥ quota then
        denyR ar.Request.UID ("quota exceeded for floatingippool " ++
          fip.Spec.FloatingIPPool ++ " in project " ++ projectIDOf fip ++
          ". Quota: " ++ toString quota ++ ", Used: " ++
          toString (quotaUsage plbc fip.Spec.FloatingIPPool))
      else { UID := ar.Request.UID, Allowed := true, Result := none }

/-- `validateFloatingIP` (pkg/service): pool existence, then for a requested
IP the literal / subnet / range / exclude / allocation checks, otherwise the
available counter, then the quota stage; first failing check produces the
deny response. -/
def validateFloatingIP (getPool : String → GetResult FloatingIPPool)
    (getQuota : String → GetResult FloatingIPProjectQuota)
    (ar : AdmissionReview) (fip : FloatingIP) : AdmissionResponse :=
  match getPool fip.Spec.FloatingIPPool with
  | .err => denyR ar.Request.UID ("the specified floatingippool " ++
      fip.Spec.FloatingIPPool ++ " does not exist")
  | .badData => denyR ar.Request.UID "internal server error: failed to process floatingippool"
  | .ok fipPool =>
    match fip.Spec.IPAddr with
    | some ipAddr =>
      match parseIP ipAddr with
      | none => denyR ar.Request.UID ("invalid IP address format: " ++ ipAddr)
      | some requestedIP =>
        match parseCIDR fipPool.Spec.IPConfig.Subnet with
        | none => denyR ar.Request.UID
            "internal server error: invalid subnet configuration in floatingippool"
        | some (_, subnet) =>
          if ¬ containsIP subnet requestedIP then
            denyR ar.Request.UID ("requested IP " ++ ipAddr ++
              " is not in the subnet range " ++ fipPool.Spec.IPConfig.Subnet)
          else match parseIP fipPool.Spec.IPConfig.Pool.Start with
          | none => denyR ar.Request.UID
              ("internal server error: invalid start ip configuration in floatingippool " ++
                fip.Spec.FloatingIPPool)
          | some startIP =>
            match parseIP fipPool.Spec.IPConfig.Pool.End with
            | none => denyR ar.Request.UID
                ("internal server error: invalid end ip configuration in floatingippool " ++
                  fip.Spec.FloatingIPPool)
            | some endIP =>
              if ipOutsideRange requestedIP startIP endIP then
                denyR ar.Request.UID ("requested IP " ++ ipAddr ++
                  " is not in the pool range [" ++ fipPool.Spec.IPConfig.Pool.Start ++
                  ", " ++ fipPool.Spec.IPConfig.Pool.End ++ "]")
              else if fipPool.Spec.IPConfig.Pool.Exclude.contains ipAddr then
                denyR ar.Request.UID ("requested IP " ++ ipAddr ++ " is in the exclude list")
              else if (fipPool.Status.Allocated.lookup ipAddr).isSome then
                denyR ar.Request.UID ("requested IP " ++ ipAddr ++ " is already allocated")
              else quotaStage getQuota ar fip
    | none =>
      if fipPool.Status.Available ≤ 0 then
        denyR ar.Request.UID ("no available IPs in floatingippool " ++ fip.Spec.FloatingIPPool)
      else quotaStage getQuota ar fip

/-- Exclude-list loop of `validateFloatingIPPool`: each excluded literal
must parse, lie in the subnet and lie in the pool range; the first failing
entry produces the deny message. -/
def checkExcludeList (uid : String) (subnet : IPNet) (subnetStr startStr endStr : String)
    (startIP endIP : List Nat) : List String → Option AdmissionResponse
  | [] => none
  | excludedIPStr :: rest =>
    match parseIP excludedIPStr with
    | none => some (denyR uid ("invalid excluded IP address format: " ++ excludedIPStr))
    | some excludedIP =>
      if ¬ containsIP subnet excludedIP then
        some (denyR uid ("excluded IP address " ++ excludedIPStr ++
          " is not within the subnet " ++ subnetStr))
      else if ipOutsideRange excludedIP startIP endIP then
        some (denyR uid ("excluded IP address " ++ excludedIPStr ++
          " is not within the pool range [" ++ startStr ++ ", " ++ endStr ++ "]"))
      else checkExcludeList uid subnet subnetStr startStr endStr startIP endIP rest

/-- `validateFloatingIPPool` (pkg/service): subnet parses, start and end
parse and lie in the subnet, start is not after end (family-aware byte
comparison), every exclude entry parses and lies in subnet and range. -/
def validateFloatingIPPool (ar : AdmissionReview) (fipPool : FloatingIPPool) :
    AdmissionResponse :=
  match parseCIDR fipPool.Spec.IPConfig.Subnet with
  | none => denyR ar.Request.UID ("invalid subnet format: " ++ fipPool.Spec.IPConfig.Subnet)
  | some (_, subnet) =>
    match parseIP fipPool.Spec.IPConfig.Pool.Start with
    | none => denyR ar.Request.UID
        ("invalid start IP address format: " ++ fipPool.Spec.IPConfig.Pool.Start)
    | some startIP =>
      if ¬ containsIP subnet startIP then
        denyR ar.Request.UID ("start IP address " ++ fipPool.Spec.IPConfig.Pool.Start ++
          " is not within the subnet " ++ fipPool.Spec.IPConfig.Subnet)
      else match parseIP fipPool.Spec.IPConfig.Pool.End with
      | none => denyR ar.Request.UID
          ("invalid end IP address format: " ++ fipPool.Spec.IPConfig.Pool.End)
      | some endIP =>
        if ¬ containsIP subnet endIP then
          denyR ar.Request.UID ("end IP address " ++ fipPool.Spec.IPConfig.Pool.End ++
            " is not within the subnet " ++ fipPool.Spec.IPConfig.Subnet)
        else if startAfterEnd startIP endIP then
          denyR ar.Request.UID ("start IP address " ++ fipPool.Spec.IPConfig.Pool.Start ++
            " must be less than or equal to end IP address " ++ fipPool.Spec.IPConfig.Pool.End)
        else
          match checkExcludeList ar.Request.UID subnet fipPool.Spec.IPConfig.Subnet
              fipPool.Spec.IPConfig.Pool.Start fipPool.Spec.IPConfig.Pool.End
              startIP endIP fipPool.Spec.IPConfig.Pool.Exclude with
          | some resp => resp
          | none => { UID := ar.Request.UID, Allowed := true, Result := none }

/-- Body of a request to one of the two admission endpoints, after the
handler's JSON steps: the review failed to decode; the review decoded but
its `Request` field is nil (a body such as `{}` or `null` decodes into a
zero-valued review); the embedded object failed to unmarshal; or
everything succeeded. -/
inductive AdmissionBody (α : Type) where
  | decodeFail (emsg : String)
  | nilRequest
  | unmarshalFail (ar : AdmissionReview) (emsg : String)
  | ok (ar : AdmissionReview) (obj : α)

/-- Reply written by a handler: a plain-text error body with an HTTP
status code, a JSON-encoded admission review, or no reply at all
(`unanswered` models a nil-pointer panic inside the handler: net/http
recovers it and closes the connection without writing a response). -/
inductive HandlerReply where
  | plainText (status : Nat) (body : String)
  | jsonReview (ar : AdmissionReview)
  | unanswered
  deriving DecidableEq

/-- Handler of `POST /validate-floatingip`: decode failures answer 500 with
a plain-text body; a decoded review whose `Request` is nil panics at the
`ar.Request.Object.Raw` dereference and the request goes unanswered;
otherwise the validator's response is embedded in the review and the
review is written back as JSON. -/
def validateFloatingIPAdmission (getPool : String → GetResult FloatingIPPool)
    (getQuota : String → GetResult FloatingIPProjectQuota) :
    AdmissionBody FloatingIP → HandlerReply
  | .decodeFail e => .plainText 500 ("cannot decode AdmissionReview to json: " ++ e)
  | .nilRequest => .unanswered
  | .unmarshalFail _ e => .plainText 500 ("cannot unmarshal json to FloatingIP: " ++ e)
  | .ok ar fip =>
      .jsonReview { ar with Response := some (validateFloatingIP getPool getQuota ar fip) }

/-- Handler of `POST /validate-floatingippool`, same shape including the
nil-`Request` panic path. -/
def validateFloatingIPPoolAdmission : AdmissionBody FloatingIPPool → HandlerReply
  | .decodeFail e => .plainText 500 ("cannot decode AdmissionReview to json: " ++ e)
  | .nilRequest => .unanswered
  | .unmarshalFail _ e => .plainText 500 ("cannot unmarshal json to FloatingIPPool: " ++ e)
  | .ok ar fipPool =>
      .jsonReview { ar with Response := some (validateFloatingIPPool ar fipPool) }

/-! Concrete fixtures mirroring the scenario of the repository's own test
suite (pool `test-pool`, subnet `192.168.1.0/24`, range
`192.168.1.10`–`192.168.1.200`, exclude `192.168.1.101`, allocated
`192.168.1.102`, quota 1 for project `test-project`). -/

/-- Test pool fixture. -/
def testPool : FloatingIPPool :=
  { Spec :=
      { IPConfig :=
          { Subnet := "192.168.1.0/24",
            Pool :=
              { Start := "192.168.1.10", End := "192.168.1.200",
                Exclude := ["192.168.1.101"] } } },
    Status := { Allocated := [("192.168.1.102", "default/another-fip")], Available := 1 } }

/-- Test quota fixture with a configurable used count. -/
def testQuota (used : Int) : FloatingIPProjectQuota :=
  { Spec := { FloatingIPQuota := [("test-pool", 1)] },
    Status := { FloatingIPs := [("test-pool", { Used := used })] } }

/-- Pool lookup fixture: only `test-pool` exists. -/
def testGP : String → GetResult FloatingIPPool :=
  fun n => if n = "test-pool" then .ok testPool else .err

/-- Quota lookup fixture: only `test-project` exists. -/
def testGQ (used : Int) : String → GetResult FloatingIPProjectQuota :=
  fun n => if n = "test-project" then .ok (testQuota used) else .err

/-- Admission review fixture. -/
def testAR : AdmissionReview := { Request := { UID := "test-uid" }, Response := none }

/-- FloatingIP request fixture against `test-pool` for `test-project`. -/
def testFIP (ip : Option String) : FloatingIP :=
  { ObjectMeta := { Labels := [("rancher.k8s.binbash.org/project-name", "test-project")] },
    Spec := { FloatingIPPool := "test-pool", IPAddr := ip } }

/-- First-failure-wins semantics of the spec's ordered check list: the deny
reason of the first failing check, or an allow when every check passes. -/
def specFirstDeny (ar : AdmissionReview) (checks : List (Option String)) : AdmissionResponse :=
  match checks.findSome? id with
  | some m => { UID := ar.Request.UID, Allowed := false, Result := some m }
  | none => { UID := ar.Request.UID, Allowed := true, Result := none }

/-- Spec §4.3 step 2 (requested-IP checks, in order): literal parse, subnet
membership, range membership, exclude list, allocation map.  The two
internal-error entries (unparsable pool configuration) sit at the positions
the spec's error rule assigns them. -/
def specIPChecks (pool : FloatingIPPool) (ipAddr poolName : String) : List (Option String) :=
  match parseIP ipAddr with
  | none => [some ("invalid IP address format: " ++ ipAddr)]
  | some requestedIP =>
    match parseCIDR pool.Spec.IPConfig.Subnet with
    | none => [some "internal server error: invalid subnet configuration in floatingippool"]
    | some (_, subnet) =>
      (if containsIP subnet requestedIP then none
       else some ("requested IP " ++ ipAddr ++ " is not in the subnet range " ++
         pool.Spec.IPConfig.Subnet)) ::
      (match parseIP pool.Spec.IPConfig.Pool.Start, parseIP pool.Spec.IPConfig.Pool.End with
       | none, _ =>
           [some ("internal server error: invalid start ip configuration in floatingippool " ++
             poolName)]
       | some _, none =>
           [some ("internal server error: invalid end ip configuration in floatingippool " ++
             poolName)]
       | some startIP, some endIP =>
           [if ipOutsideRange requestedIP startIP endIP then
              some ("requested IP " ++ ipAddr ++ " is not in the pool range [" ++
                pool.Spec.IPConfig.Pool.Start ++ ", " ++ pool.Spec.IPConfig.Pool.End ++ "]")
            else none,
            if pool.Spec.IPConfig.Pool.Exclude.contains ipAddr then
              some ("requested IP " ++ ipAddr ++ " is in the exclude list")
            else none,
            if (pool.Status.Allocated.lookup ipAddr).isSome then
              some ("requested IP " ++ ipAddr ++ " is already allocated")
            else none])

/-- Spec §4.3 steps 1–3: pool existence, then the requested-IP checks or the
available-counter check. -/
def specPreQuotaChecks (getPool : String → GetResult FloatingIPPool) (fip : FloatingIP) :
    List (Option String) :=
  match getPool fip.Spec.FloatingIPPool with
  | .err => [some ("the specified floatingippool " ++ fip.Spec.FloatingIPPool ++
      " does not exist")]
  | .badData => [some "internal server error: failed to process floatingippool"]
  | .ok pool =>
    match fip.Spec.IPAddr with
    | some ipAddr => specIPChecks pool ipAddr fip.Spec.FloatingIPPool
    | none =>
        [if pool.Status.Available ≤ 0 then
           some ("no available IPs in floatingippool " ++ fip.Spec.FloatingIPPool)
         else none]

/-- Spec §4.3 step 4: quota-object existence, per-pool quota entry, strict
used-below-quota test. -/
def specQuotaChecks (getQuota : String → GetResult FloatingIPProjectQuota) (fip : FloatingIP) :
    List (Option String) :=
  match getQuota (projectIDOf fip) with
  | .err => [some ("failed to get floatingipprojectquota for project " ++ projectIDOf fip)]
  | .badData => [some "internal server error: failed to process floatingipprojectquota"]
  | .ok plbc =>
    match plbc.Spec.FloatingIPQuota.lookup fip.Spec.FloatingIPPool with
    | none => [some ("no quota defined for floatingippool " ++ fip.Spec.FloatingIPPool ++
        " in project " ++ projectIDOf fip)]
    | some quota =>
      [if quotaUsage plbc fip.Spec.FloatingIPPool ≥ quota then
         some ("quota exceeded for floatingippool " ++ fip.Spec.FloatingIPPool ++
           " in project " ++ projectIDOf fip ++ ". Quota: " ++ toString quota ++
           ", Used: " ++ toString (quotaUsage plbc fip.Spec.FloatingIPPool))
       else none]

/-- Full ordered check list of one `validateFloatingIP` call. -/
def specChecks (getPool : String → GetResult FloatingIPPool)
    (getQuota : String → GetResult FloatingIPProjectQuota) (fip : FloatingIP) :
    List (Option String) :=
  specPreQuotaChecks getPool fip ++ specQuotaChecks getQuota fip

/-- Spec-shaped validator: first failing check in the ordered list decides. -/
def specValidateFloatingIP (getPool : String → GetResult FloatingIPPool)
    (getQuota : String → GetResult FloatingIPProjectQuota)
    (ar : AdmissionReview) (fip : FloatingIP) : AdmissionResponse :=
  specFirstDeny ar (specChecks getPool getQuota fip)

/-- Single-address pool with an unparsable exclude entry, used as the C8
counterexample. -/
def c8pool : FloatingIPPool :=
  { Spec :=
      { IPConfig :=
          { Subnet := "192.168.1.0/24",
            Pool :=
              { Start := "192.168.1.15", End := "192.168.1.15",
                Exclude := ["bad"] } } },
    Status := { Allocated := [], Available := 1 } }

/-- Discriminator: whether a handler reply is a JSON admission review. -/
def isJsonReview : HandlerReply → Bool
  | .jsonReview _ => true
  | _ => false

/-- Observable classes of a byte blob stored in the TLS secret or returned
by the cluster signer. -/
inductive BlobKind where
  | emptyBlob
  | rawBlob
  | badCertPem
  | certPem (notAfter : Int)
  | keyPem
  deriving DecidableEq

/-- Go `pem.Decode`: empty input and non-PEM bytes yield no block. -/
def pemDecode : BlobKind → Option BlobKind
  | .emptyBlob => none
  | .rawBlob => none
  | b => some b

/-- Go `x509.ParseCertificate` on a decoded PEM body: succeeds exactly on a
certificate block, returning its not-after timestamp. -/
def parseCertificate : BlobKind → Except String Int
  | .certPem t => .ok t
  | _ => .error "x509: malformed certificate"

/-- Whether a blob has byte length zero. -/
def blobIsEmpty : BlobKind → Bool
  | .emptyBlob => true
  | _ => false

/-- `tls.Certificate` as the lifecycle code uses it: the certificate chain
and the private key (`none` models a nil key). -/
structure TLSPair where
  Certificate : List BlobKind
  PrivateKey : Option BlobKind
  deriving DecidableEq

/-- `getTLSDataFromSecret`: read `tls.crt` and `tls.key` from the secret
data (an absent secret reads as an empty data map, matching `getSecret`). -/
def getTLSDataFromSecret (secret : Option (List (String × BlobKind))) :
    Except String TLSPair :=
  let s := secret.getD []
  match s.lookup "tls.crt" with
  | none => .error "tls.crt not found in secret"
  | some cert =>
    match s.lookup "tls.key" with
    | none => .error "tls.key not found in secret"
    | some key => .ok { Certificate := [cert], PrivateKey := some key }

/-- Outcome of `GetCertExpireDate`: the not-after timestamp, a returned
error, or a crash (`nilDeref` models the nil-pointer dereference of
`err.Error()` on the branch where `pem.Decode` returns no block while
`err` is still nil). -/
inductive ExpireOutcome where
  | ok (t : Int)
  | errMsg (m : String)
  | nilDeref
  deriving DecidableEq

/-- `GetCertExpireDate`: fetch the TLS data, reject an empty certificate,
PEM-decode and X.509-parse it, and return the not-after timestamp.  On the
`pem.Decode` failure branch the Go code formats `err.Error()` with a nil
`err`, which panics: that branch is `nilDeref`, not a returned error. -/
def GetCertExpireDate (secret : Option (List (String × BlobKind))) : ExpireOutcome :=
  match getTLSDataFromSecret secret with
  | .error e => .errMsg ("cannot while fetching TLS data: " ++ e)
  | .ok tlsPair =>
    match tlsPair.Certificate.head? with
    | none => .nilDeref
    | some cert =>
      if blobIsEmpty cert then .errMsg "certificate is empty"
      else
        match pemDecode cert with
        | none => .nilDeref
        | some b =>
          match parseCertificate b with
          | .error e => .errMsg ("cannot parse TLS PEM data: " ++ e)
          | .ok t => .ok t

/-- Deterministic CSR resource name set by `Init`. -/
def csrNameOf (webhookName webhookNamespace : String) : String :=
  webhookName ++ "." ++ webhookNamespace ++ ".svc"

/-- Signature algorithm of the generated request. -/
inductive SigAlg where
  | SHA256WithRSA
  deriving DecidableEq

/-- Identity fields of the PKCS#10 request built by
`generateTLSKeyAndCert`. -/
structure CertRequestIdentity where
  CommonName : String
  Organization : List String
  SignatureAlgorithm : SigAlg
  DNSNames : List String
  deriving DecidableEq

/-- The certificate-request template built by `generateTLSKeyAndCert` (with
`csrName` as assigned by `Init`). -/
def certRequestTemplate (webhookName webhookNamespace : String) : CertRequestIdentity :=
  { CommonName := "system:node:" ++ webhookName ++ "." ++ webhookNamespace ++ ".svc",
    Organization := ["system:nodes"],
    SignatureAlgorithm := .SHA256WithRSA,
    DNSNames :=
      [webhookName,
       webhookName ++ "." ++ webhookNamespace,
       csrNameOf webhookName webhookNamespace,
       webhookName ++ "." ++ webhookNamespace ++ ".cluster.local"] }

/-- Cluster-side state owned by the lifecycle: the persisted TLS secret
(data map of the `<name>-tls` secret) and whether the named CSR object
exists. -/
structure ConfigState where
  secret : Option (List (String × BlobKind))
  csr : Bool
  deriving DecidableEq

/-- Environment of one lifecycle pass: which API calls fail (with the
underlying error text), the certificate bytes the signer materialises, and
the current time in minutes. -/
structure LifeEnv where
  keygenFail : Bool
  csrCreateFail : Bool
  approveFail : Bool
  csrGetFail : Bool
  deleteCsrFail : Bool
  deleteSecretFail : Bool
  createSecretFail : Bool
  writeFilesFail : Bool
  signedCert : BlobKind
  errText : String
  now : Int
  deriving DecidableEq

/-- Result of one lifecycle step: success, a returned error, or a runtime
panic. -/
inductive StepResult (α : Type) where
  | ok (a : α)
  | err (m : String)
  | crash
  deriving DecidableEq

/-- `generateTLSKeyAndCert`: RSA key generation, then `createAndSignCSR`
(create the CSR object, self-approve it, read back the signed certificate
after the settle delay).  Every failure returns the zero pair together
with the wrapped error; a successful create leaves the CSR object in the
cluster even if approval or read-back fails afterwards. -/
def generateTLSKeyAndCert (env : LifeEnv) (st : ConfigState) :
    ConfigState × Except String TLSPair :=
  if env.keygenFail then (st, .error ("error while generating key: " ++ env.errText))
  else if env.csrCreateFail then
    (st, .error ("error while creating signing request: " ++ env.errText))
  else
    let st1 := { st with csr := true }
    if env.approveFail then
      (st1, .error ("error while approving signing request: " ++ env.errText))
    else if env.csrGetFail then
      (st1, .error ("error while getting the updated signing request: " ++ env.errText))
    else (st1, .ok { Certificate := [env.signedCert], PrivateKey := some .keyPem })

/-- `createSecret`: marshal the private key (a nil key fails right here,
before the secret is touched), then store `tls.key`/`tls.crt`.  Reading
`Certificate[0]` of an empty chain would panic. -/
def createSecret (env : LifeEnv) (st : ConfigState) (tlsPair : TLSPair) :
    ConfigState × StepResult Unit :=
  match tlsPair.PrivateKey with
  | none => (st, .err ("unable to marshal private key: " ++ "x509: unknown key type"))
  | some _ =>
    match tlsPair.Certificate.head? with
    | none => (st, .crash)
    | some cert =>
      if env.createSecretFail then (st, .err env.errText)
      else ({ st with secret := some [("tls.key", .keyPem), ("tls.crt", cert)] }, .ok ())

/-- `deleteSecret`. -/
def deleteSecret (env : LifeEnv) (st : ConfigState) : ConfigState × StepResult Unit :=
  if env.deleteSecretFail then (st, .err ("cannot delete webhook secret: " ++ env.errText))
  else ({ st with secret := none }, .ok ())

/-- `renewTLSPair`: delete a stale CSR (aborting on failure), generate the
new key and certificate, delete the old secret, store the new pair. -/
def renewTLSPair (env : LifeEnv) (st : ConfigState) : ConfigState × StepResult Unit :=
  let step1 : ConfigState × StepResult Unit :=
    if st.csr then
      if env.deleteCsrFail then (st, .err env.errText)
      else ({ st with csr := false }, .ok ())
    else (st, .ok ())
  match step1 with
  | (st1, .ok _) =>
    match generateTLSKeyAndCert env st1 with
    | (st2, .error e) => (st2, .err e)
    | (st2, .ok tlsPair) =>
      match deleteSecret env st2 with
      | (st3, .ok _) => createSecret env st3 tlsPair
      | (st3, r) => (st3, r)
  | other => other

/-- Final outcome of one `Run` pass: the resulting cluster state with the
errors logged along the way, or a process crash. -/
inductive RunOutcome where
  | finished (st : ConfigState) (logs : List String)
  | crashed
  deriving DecidableEq

/-- `writeTLSDataFromSecret` at the end of every pass: re-reads the secret
and mirrors it to the two local files; failures are logged only. -/
def finishWrite (env : LifeEnv) (st : ConfigState) (logs : List String) : RunOutcome :=
  match getTLSDataFromSecret st.secret with
  | .error e => .finished st (logs ++ ["cannot while fetching TLS data: " ++ e])
  | .ok _ =>
    if env.writeFilesFail then
      .finished st (logs ++ ["error while writing private key file: " ++ env.errText])
    else .finished st logs

/-- One `Run(certRenewalPeriod)` pass of the Certificate Lifecycle Manager:
if the secret exists, renew when the remaining validity (in minutes) is
below the renewal period (an unreadable expiration is logged and treated
as fresh, matching `checkCertExpireDate`); otherwise bootstrap: delete a
stale CSR (logging a failure but continuing), generate the pair (logging a
failure but continuing), and store it.  Every pass ends by mirroring the
secret to the local files. -/
def runPass (env : LifeEnv) (st : ConfigState) (period : Int) : RunOutcome :=
  if st.secret.isSome then
    match GetCertExpireDate st.secret with
    | .nilDeref => .crashed
    | .errMsg e => finishWrite env st [e]
    | .ok expire =>
      if expire - env.now < period then
        match renewTLSPair env st with
        | (st1, .ok _) => finishWrite env st1 []
        | (st1, .err m) => finishWrite env st1 [m]
        | (_, .crash) => .crashed
      else finishWrite env st []
  else
    let step1 : ConfigState × List String :=
      if st.csr then
        if env.deleteCsrFail then (st, [env.errText]) else ({ st with csr := false }, [])
      else (st, [])
    match step1 with
    | (st1, logs1) =>
      match generateTLSKeyAndCert env st1 with
      | (st2, .error e) =>
        match createSecret env st2 { Certificate := [], PrivateKey := none } with
        | (st3, .ok _) => finishWrite env st3 (logs1 ++ [e])
        | (st3, .err m) => finishWrite env st3 (logs1 ++ [e, m])
        | (_, .crash) => .crashed
      | (st2, .ok tlsPair) =>
        match createSecret env st2 tlsPair with
        | (st3, .ok _) => finishWrite env st3 logs1
        | (st3, .err m) => finishWrite env st3 (logs1 ++ [m])
        | (_, .crash) => .crashed

/-- Whether one of the four certificate-issuance stages (key generation,
CSR create, CSR approval, signed-certificate read-back) fails in this
environment. -/
def genStageFails (env : LifeEnv) : Bool :=
  env.keygenFail || env.csrCreateFail || env.approveFail || env.csrGetFail

/-- Whether a log line is the wrapped error of one of the four issuance
stages. -/
def isGenStageErr (env : LifeEnv) (m : String) : Bool :=
  decide (m = "error while generating key: " ++ env.errText) ||
  decide (m = "error while creating signing request: " ++ env.errText) ||
  decide (m = "error while approving signing request: " ++ env.errText) ||
  decide (m = "error while getting the updated signing request: " ++ env.errText)

/-- Whether the pass on this state decides that a renewal is due. -/
def renewalDue (env : LifeEnv) (st : ConfigState) (period : Int) : Bool :=
  match GetCertExpireDate st.secret with
  | .ok expire => decide (expire - env.now < period)
  | _ => false

/-- `StartCertRenewalScheduler` interval computation: `d` is the duration
until expiration in nanoseconds; Go's `int64(difference.Minutes())`
truncates the minute count toward zero (`Int.tdiv`, reading the float
conversion as exact real arithmetic), then the renewal period is
subtracted, one minute is added, and the result is clamped to a minimum of
one minute. -/
def schedTicks (d : Int) (certRenewalPeriod : Int) : Int :=
  if Int.tdiv d 60000000000 - certRenewalPeriod + 1 < 1 then 1
  else Int.tdiv d 60000000000 - certRenewalPeriod + 1

example : parseIP "192.168.1.100" = some (v4InV6 ++ [192, 168, 1, 100]) := by decide

example : parseIP "" = none := by decide

example : parseIP "invalid-ip" = none := by decide

example : parseIP "192.168.01.1" = none := by decide

example : parseIP "::ffff:1.2.3.4" = some (v4InV6 ++ [1, 2, 3, 4]) := by decide

example : parseIP "1:2:3:4:5:6:7:8" = some [0,1,0,2,0,3,0,4,0,5,0,6,0,7,0,8] := by decide

example : parseCIDR "192.168.1.0/24" =
    some ([192, 168, 1, 0], ⟨[192, 168, 1, 0], [255, 255, 255, 0]⟩) := by decide

example : parseCIDR "invalid-subnet" = none := by decide

example : (parseCIDR "192.168.1.0/24").map
    (fun p => containsIP p.2 (v4InV6 ++ [192, 168, 1, 100])) = some true := by decide

example : (parseCIDR "192.168.1.0/24").map
    (fun p => containsIP p.2 (v4InV6 ++ [192, 168, 2, 1])) = some false := by decide

example : ipOutsideRange (v4InV6 ++ [192,168,1,100]) (v4InV6 ++ [192,168,1,10])
    (v4InV6 ++ [192,168,1,200]) = false := by decide

example : ipOutsideRange (v4InV6 ++ [192,168,1,201]) (v4InV6 ++ [192,168,1,10])
    (v4InV6 ++ [192,168,1,200]) = true := by decide

/-! Data model of the custom resources, translated from the fields the
webhook reads (`rfmv1.FloatingIPPool`, `rfmv1.FloatingIPProjectQuota`,
`rfmv1.FloatingIP`, and the `admission/v1` envelope).  Go maps become
association lists; the Go `int` fields become `Int`. -/

example : validateFloatingIP testGP (testGQ 0) testAR (testFIP (some "192.168.1.100")) =
    { UID := "test-uid", Allowed := true, Result := none } := by decide

example : validateFloatingIP testGP (testGQ 0) testAR (testFIP (some "192.168.1.101")) =
    denyR "test-uid" "requested IP 192.168.1.101 is in the exclude list" := by decide

example : validateFloatingIP testGP (testGQ 0) testAR (testFIP (some "192.168.1.102")) =
    denyR "test-uid" "requested IP 192.168.1.102 is already allocated" := by decide

example : validateFloatingIP testGP (testGQ 0) testAR (testFIP (some "192.168.2.1")) =
    denyR "test-uid" "requested IP 192.168.2.1 is not in the subnet range 192.168.1.0/24" := by
  decide

example : validateFloatingIP testGP (testGQ 0) testAR (testFIP (some "")) =
    denyR "test-uid" "invalid IP address format: " := by decide

example : validateFloatingIP testGP (testGQ 1) testAR (testFIP none) =
    denyR "test-uid"
      "quota exceeded for floatingippool test-pool in project test-project. Quota: 1, Used: 1" := by
  decide

example : validateFloatingIP (fun _ => .err) (testGQ 0) testAR (testFIP none) =
    denyR "test-uid" "the specified floatingippool test-pool does not exist" := by decide

example : validateFloatingIPPool testAR testPool =
    { UID := "test-uid", Allowed := true, Result := none } := by decide
/-! Specification-shaped rendering of §4.3 of the spec: `validateFloatingIP`
as an ordered list of independent check outcomes (each `none` = pass,
`some msg` = fail with that deny reason) where the first failure wins.
These definitions follow the spec text; the refinement lemma below relates
them to the source-shaped `validateFloatingIP`. -/

theorem quotaStage_eq_spec (getQuota : String → GetResult FloatingIPProjectQuota)
    (ar : AdmissionReview) (fip : FloatingIP) :
    quotaStage getQuota ar fip = specFirstDeny ar (specQuotaChecks getQuota fip) := by
  unfold quotaStage specQuotaChecks specFirstDeny
  cases getQuota (projectIDOf fip) with
  | err => simp [List.findSome?, denyR]
  | badData => simp [List.findSome?, denyR]
  | ok plbc =>
    cases hq : plbc.Spec.FloatingIPQuota.lookup fip.Spec.FloatingIPPool with
    | none => simp [hq, List.findSome?, denyR]
    | some quota =>
      simp only [hq]
      split
      · simp [List.findSome?, denyR]
      · simp [List.findSome?, denyR]

theorem validateFloatingIP_eq_spec (getPool : String → GetResult FloatingIPPool)
    (getQuota : String → GetResult FloatingIPProjectQuota)
    (ar : AdmissionReview) (fip : FloatingIP) :
    validateFloatingIP getPool getQuota ar fip =
      specValidateFloatingIP getPool getQuota ar fip := by
  unfold validateFloatingIP specValidateFloatingIP specChecks specPreQuotaChecks
  cases hgp : getPool fip.Spec.FloatingIPPool with
  | err => simp [specFirstDeny, List.findSome?, denyR]
  | badData => simp [specFirstDeny, List.findSome?, denyR]
  | ok pool =>
    cases hip : fip.Spec.IPAddr with
    | none =>
      by_cases hav : pool.Status.Available ≤ 0
      · simp [hav, specFirstDeny, List.findSome?, denyR]
      · simp [hav, specFirstDeny, List.findSome?, quotaStage_eq_spec, specQuotaChecks,
          specFirstDeny]
    | some ipAddr =>
      unfold specIPChecks
      cases hpi : parseIP ipAddr with
      | none => simp [hpi, specFirstDeny, List.findSome?, denyR]
      | some requestedIP =>
        cases hcidr : parseCIDR pool.Spec.IPConfig.Subnet with
        | none => simp [hpi, hcidr, specFirstDeny, List.findSome?, denyR]
        | some p =>
          obtain ⟨ipUnused, subnet⟩ := p
          cases hc : containsIP subnet requestedIP with
          | true =>
            cases hps : parseIP pool.Spec.IPConfig.Pool.Start with
            | none => simp [hpi, hcidr, hps, hc, specFirstDeny, List.findSome?, denyR]
            | some startIP =>
              cases hpe : parseIP pool.Spec.IPConfig.Pool.End with
              | none => simp [hpi, hcidr, hps, hpe, hc, specFirstDeny, List.findSome?, denyR]
              | some endIP =>
                cases hr : ipOutsideRange requestedIP startIP endIP with
                | true => simp [hpi, hcidr, hps, hpe, hc, hr, specFirstDeny, List.findSome?, denyR]
                | false =>
                  by_cases hx : ipAddr ∈ pool.Spec.IPConfig.Pool.Exclude
                  · simp [hpi, hcidr, hps, hpe, hc, hr, hx, specFirstDeny, List.findSome?, denyR]
                  · cases ha : (pool.Status.Allocated.lookup ipAddr).isSome with
                    | true =>
                      simp [hpi, hcidr, hps, hpe, hc, hr, hx, ha, specFirstDeny,
                        List.findSome?, denyR]
                    | false =>
                      simp [hpi, hcidr, hps, hpe, hc, hr, hx, ha, List.findSome?,
                        quotaStage_eq_spec, specQuotaChecks, specFirstDeny]
          | false => simp [hpi, hcidr, hc, specFirstDeny, List.findSome?, denyR]

/-- Strings whose first characters differ are different. -/
theorem ne_of_heads {x y : String} {c d : Char} (hx : x.data.head? = some c)
    (hy : y.data.head? = some d) (h : c ≠ d) : x ≠ y := by
  intro e
  apply h
  rw [e] at hx
  rw [hx] at hy
  exact Option.some.inj hy

/-- The first character of `s ++ t` is the first character of a non-empty
`s`. -/
theorem data_head_append (s t : String) {c : Char} (h : s.data.head? = some c) :
    (s ++ t).data.head? = some c := by
  rw [String.data_append]
  cases hs : s.data with
  | nil => simp [hs] at h
  | cons a l => rw [hs] at h; exact h

/-- Appending to a fixed prefix preserves inequality. -/
theorem str_prepend_ne (p : String) {x y : String} (h : x ≠ y) : p ++ x ≠ p ++ y := by
  intro he
  apply h
  apply String.ext
  have hd := congrArg String.data he
  rw [String.data_append, String.data_append] at hd
  exact List.append_cancel_left hd

/-- Common-prefix strings whose remainders start with different characters
are different. -/
theorem split_head_ne {c d : Char} (k : String) {x y : String}
    (hx : x.data.head? = some c) (hy : y.data.head? = some d) (hcd : c ≠ d) :
    k ++ x ≠ k ++ y :=
  str_prepend_ne k (ne_of_heads hx hy hcd)

/-- The eight deny reasons of the spec's §4.3 checks (pool existence; IP
parse, subnet, range, exclude, allocated; available counter; quota), as
built by `validateFloatingIP`, are pairwise distinct for every combination
of interpolated values. -/
theorem denyMessages_pairwise (p a sn st en pid : String) (q u : Int) :
    List.Pairwise (· ≠ ·)
      ["the specified floatingippool " ++ p ++ " does not exist",
       "invalid IP address format: " ++ a,
       "requested IP " ++ a ++ " is not in the subnet range " ++ sn,
       "requested IP " ++ a ++ " is not in the pool range [" ++ st ++ ", " ++ en ++ "]",
       "requested IP " ++ a ++ " is in the exclude list",
       "requested IP " ++ a ++ " is already allocated",
       "no available IPs in floatingippool " ++ p,
       "quota exceeded for floatingippool " ++ p ++ " in project " ++ pid ++
         ". Quota: " ++ toString q ++ ", Used: " ++ toString u] := by
  simp only [String.append_assoc]
  have h1 : ("the specified floatingippool " ++ (p ++ " does not exist")).data.head? =
      some 't' := data_head_append _ _ rfl
  have h2 : ("invalid IP address format: " ++ a).data.head? = some 'i' :=
    data_head_append _ _ rfl
  have h3 : ("requested IP " ++ (a ++ (" is not in the subnet range " ++ sn))).data.head? =
      some 'r' := data_head_append _ _ rfl
  have h4 : ("requested IP " ++
      (a ++ (" is not in the pool range [" ++ (st ++ (", " ++ (en ++ "]")))))).data.head? =
      some 'r' := data_head_append _ _ rfl
  have h5 : ("requested IP " ++ (a ++ " is in the exclude list")).data.head? = some 'r' :=
    data_head_append _ _ rfl
  have h6 : ("requested IP " ++ (a ++ " is already allocated")).data.head? = some 'r' :=
    data_head_append _ _ rfl
  have h7 : ("no available IPs in floatingippool " ++ p).data.head? = some 'n' :=
    data_head_append _ _ rfl
  have h8 : ("quota exceeded for floatingippool " ++ (p ++ (" in project " ++ (pid ++
      (". Quota: " ++ (toString q ++ (", Used: " ++ toString u))))))).data.head? =
      some 'q' := data_head_append _ _ rfl
  refine .cons ?_ (.cons ?_ (.cons ?_ (.cons ?_ (.cons ?_ (.cons ?_ (.cons ?_
    (.cons ?_ .nil)))))))
  · intro m hm
    simp only [List.mem_cons, List.not_mem_nil, or_false] at hm
    rcases hm with rfl | rfl | rfl | rfl | rfl | rfl | rfl
    · exact ne_of_heads h1 h2 (by decide)
    · exact ne_of_heads h1 h3 (by decide)
    · exact ne_of_heads h1 h4 (by decide)
    · exact ne_of_heads h1 h5 (by decide)
    · exact ne_of_heads h1 h6 (by decide)
    · exact ne_of_heads h1 h7 (by decide)
    · exact ne_of_heads h1 h8 (by decide)
  · intro m hm
    simp only [List.mem_cons, List.not_mem_nil, or_false] at hm
    rcases hm with rfl | rfl | rfl | rfl | rfl | rfl
    · exact ne_of_heads h2 h3 (by decide)
    · exact ne_of_heads h2 h4 (by decide)
    · exact ne_of_heads h2 h5 (by decide)
    · exact ne_of_heads h2 h6 (by decide)
    · exact ne_of_heads h2 h7 (by decide)
    · exact ne_of_heads h2 h8 (by decide)
  · intro m hm
    simp only [List.mem_cons, List.not_mem_nil, or_false] at hm
    rcases hm with rfl | rfl | rfl | rfl | rfl
    · apply str_prepend_ne
      apply str_prepend_ne
      rw [show (" is not in the subnet range " : String) =
            " is not in the " ++ "subnet range " from rfl,
          show (" is not in the pool range [" : String) =
            " is not in the " ++ "pool range [" from rfl,
          String.append_assoc, String.append_assoc]
      exact split_head_ne _ (data_head_append _ _ rfl) (data_head_append _ _ rfl) (by decide)
    · apply str_prepend_ne
      apply str_prepend_ne
      rw [show (" is not in the subnet range " : String) = " is " ++ "not in the subnet range "
            from rfl,
          show (" is in the exclude list" : String) = " is " ++ "in the exclude list" from rfl,
          String.append_assoc]
      exact split_head_ne _ (data_head_append _ _ rfl) rfl (by decide)
    · apply str_prepend_ne
      apply str_prepend_ne
      rw [show (" is not in the subnet range " : String) = " is " ++ "not in the subnet range "
            from rfl,
          show (" is already allocated" : String) = " is " ++ "already allocated" from rfl,
          String.append_assoc]
      exact split_head_ne _ (data_head_append _ _ rfl) rfl (by decide)
    · exact ne_of_heads h3 h7 (by decide)
    · exact ne_of_heads h3 h8 (by decide)
  · intro m hm
    simp only [List.mem_cons, List.not_mem_nil, or_false] at hm
    rcases hm with rfl | rfl | rfl | rfl
    · apply str_prepend_ne
      apply str_prepend_ne
      rw [show (" is not in the pool range [" : String) = " is " ++ "not in the pool range ["
            from rfl,
          show (" is in the exclude list" : String) = " is " ++ "in the exclude list" from rfl,
          String.append_assoc]
      exact split_head_ne _ (data_head_append _ _ rfl) rfl (by decide)
    · apply str_prepend_ne
      apply str_prepend_ne
      rw [show (" is not in the pool range [" : String) = " is " ++ "not in the pool range ["
            from rfl,
          show (" is already allocated" : String) = " is " ++ "already allocated" from rfl,
          String.append_assoc]
      exact split_head_ne _ (data_head_append _ _ rfl) rfl (by decide)
    · exact ne_of_heads h4 h7 (by decide)
    · exact ne_of_heads h4 h8 (by decide)
  · intro m hm
    simp only [List.mem_cons, List.not_mem_nil, or_false] at hm
    rcases hm with rfl | rfl | rfl
    · apply str_prepend_ne
      apply str_prepend_ne
      rw [show (" is in the exclude list" : String) = " is " ++ "in the exclude list" from rfl,
          show (" is already allocated" : String) = " is " ++ "already allocated" from rfl]
      exact split_head_ne _ rfl rfl (by decide)
    · exact ne_of_heads h5 h7 (by decide)
    · exact ne_of_heads h5 h8 (by decide)
  · intro m hm
    simp only [List.mem_cons, List.not_mem_nil, or_false] at hm
    rcases hm with rfl | rfl
    · exact ne_of_heads h6 h7 (by decide)
    · exact ne_of_heads h6 h8 (by decide)
  · intro m hm
    simp only [List.mem_cons, List.not_mem_nil, or_false] at hm
    rcases hm with rfl
    exact ne_of_heads h7 h8 (by decide)
  · intro m hm
    simp only [List.not_mem_nil] at hm

/-- Allow decision of `validateFloatingIP` is equivalent to every check of
the ordered list passing. -/
theorem validateFloatingIP_allowed_iff (getPool : String → GetResult FloatingIPPool)
    (getQuota : String → GetResult FloatingIPProjectQuota)
    (ar : AdmissionReview) (fip : FloatingIP) :
    (validateFloatingIP getPool getQuota ar fip).Allowed = true ↔
      (specChecks getPool getQuota fip).findSome? id = none := by
  rw [validateFloatingIP_eq_spec]
  unfold specValidateFloatingIP specFirstDeny
  cases h : (specChecks getPool getQuota fip).findSome? id with
  | none => simp
  | some m => simp

/-- Helper: any deny produced by the exclude-list loop echoes the given
request UID. -/
theorem checkExcludeList_uid (uid : String) (subnet : IPNet)
    (subnetStr startStr endStr : String) (startIP endIP : List Nat) :
    ∀ (l : List String) (resp : AdmissionResponse),
      checkExcludeList uid subnet subnetStr startStr endStr startIP endIP l = some resp →
      resp.UID = uid := by
  intro l
  induction l with
  | nil => intro resp h; simp [checkExcludeList] at h
  | cons x rest ih =>
    intro resp h
    unfold checkExcludeList at h
    cases hp : parseIP x with
    | none =>
      simp only [hp, Option.some.injEq] at h
      rw [← h]; rfl
    | some ex =>
      simp only [hp] at h
      cases hc : containsIP subnet ex with
      | false =>
        simp [hc] at h
        rw [← h]; rfl
      | true =>
        cases hr : ipOutsideRange ex startIP endIP with
        | true =>
          simp [hc, hr] at h
          rw [← h]; rfl
        | false =>
          simp [hc, hr] at h
          exact ih resp h

/-- Helper: every response of `validateFloatingIPPool` echoes the request
UID. -/
theorem validateFloatingIPPool_uid (ar : AdmissionReview) (fipPool : FloatingIPPool) :
    (validateFloatingIPPool ar fipPool).UID = ar.Request.UID := by
  unfold validateFloatingIPPool
  cases hcidr : parseCIDR fipPool.Spec.IPConfig.Subnet with
  | none => simp [denyR]
  | some pr =>
    obtain ⟨x, subnet⟩ := pr
    cases hps : parseIP fipPool.Spec.IPConfig.Pool.Start with
    | none => simp [denyR]
    | some startIP =>
      cases hcs : containsIP subnet startIP with
      | false => simp [hcs, denyR]
      | true =>
        cases hpe : parseIP fipPool.Spec.IPConfig.Pool.End with
        | none => simp [hcs, denyR]
        | some endIP =>
          cases hce : containsIP subnet endIP with
          | false => simp [hcs, hce, denyR]
          | true =>
            cases hord : startAfterEnd startIP endIP with
            | true => simp [hcs, hce, hord, denyR]
            | false =>
              simp only [hcs, hce, hord]
              cases hex : checkExcludeList ar.Request.UID subnet fipPool.Spec.IPConfig.Subnet
                  fipPool.Spec.IPConfig.Pool.Start fipPool.Spec.IPConfig.Pool.End
                  startIP endIP fipPool.Spec.IPConfig.Pool.Exclude with
              | none => simp [hex]
              | some resp =>
                simp only [hex, Bool.false_eq_true, if_false, if_true]
                exact checkExcludeList_uid _ _ _ _ _ _ _ _ _ hex

/-- C1: For every FloatingIP admission request, `validateFloatingIP`
evaluates its checks in the fixed order of §4.3 — pool existence; for a
requested IP the literal-parse, subnet, inclusive-range, exclude-list and
already-allocated checks; otherwise the available-count check; then quota —
returning the deny reason of the first failing check (refinement to the
ordered check list with first-some-wins semantics), it returns allowed
exactly when every check passes, and the eight checks carry pairwise
distinct human-readable messages for all interpolated values. -/
theorem C1_ordered_checks_first_failure :
    (∀ (getPool : String → GetResult FloatingIPPool)
       (getQuota : String → GetResult FloatingIPProjectQuota)
       (ar : AdmissionReview) (fip : FloatingIP),
       validateFloatingIP getPool getQuota ar fip =
         specValidateFloatingIP getPool getQuota ar fip) ∧
    (∀ (getPool : String → GetResult FloatingIPPool)
       (getQuota : String → GetResult FloatingIPProjectQuota)
       (ar : AdmissionReview) (fip : FloatingIP),
       (validateFloatingIP getPool getQuota ar fip).Allowed = true ↔
         (specChecks getPool getQuota fip).findSome? id = none) ∧
    (∀ (p a sn st en pid : String) (q u : Int),
       List.Pairwise (· ≠ ·)
         ["the specified floatingippool " ++ p ++ " does not exist",
          "invalid IP address format: " ++ a,
          "requested IP " ++ a ++ " is not in the subnet range " ++ sn,
          "requested IP " ++ a ++ " is not in the pool range [" ++ st ++ ", " ++ en ++ "]",
          "requested IP " ++ a ++ " is in the exclude list",
          "requested IP " ++ a ++ " is already allocated",
          "no available IPs in floatingippool " ++ p,
          "quota exceeded for floatingippool " ++ p ++ " in project " ++ pid ++
            ". Quota: " ++ toString q ++ ", Used: " ++ toString u]) :=
  ⟨validateFloatingIP_eq_spec, validateFloatingIP_allowed_iff, denyMessages_pairwise⟩

/-- C2 counterexample: the request for `192.168.1.100` satisfies every
IP-level condition of the claim (parses, in subnet, in range, not excluded,
not allocated), yet with an exhausted quota (`Quota: 1, Used: 1`) the
validator denies — so the claim as stated, with no quota precondition, is
false on the code. -/
theorem C2_counterexample :
    parseIP "192.168.1.100" = some (v4InV6 ++ [192, 168, 1, 100]) ∧
    (parseCIDR testPool.Spec.IPConfig.Subnet).map
      (fun pr => containsIP pr.2 (v4InV6 ++ [192, 168, 1, 100])) = some true ∧
    parseIP testPool.Spec.IPConfig.Pool.Start = some (v4InV6 ++ [192, 168, 1, 10]) ∧
    parseIP testPool.Spec.IPConfig.Pool.End = some (v4InV6 ++ [192, 168, 1, 200]) ∧
    ipOutsideRange (v4InV6 ++ [192, 168, 1, 100]) (v4InV6 ++ [192, 168, 1, 10])
      (v4InV6 ++ [192, 168, 1, 200]) = false ∧
    testPool.Spec.IPConfig.Pool.Exclude.contains "192.168.1.100" = false ∧
    (testPool.Status.Allocated.lookup "192.168.1.100").isSome = false ∧
    validateFloatingIP testGP (testGQ 1) testAR (testFIP (some "192.168.1.100")) =
      denyR "test-uid"
        "quota exceeded for floatingippool test-pool in project test-project. Quota: 1, Used: 1" := by
  decide

/-- C2 (amended): for every pool and requested IP that parses, lies in the
pool's subnet, lies in the inclusive start–end range, is not excluded and
is not allocated, and whose project additionally passes the quota stage
(quota object found, an entry for the pool exists, used < quota),
`validateFloatingIP` allows. -/
theorem C2_valid_ip_with_quota_allowed
    (getPool : String → GetResult FloatingIPPool)
    (getQuota : String → GetResult FloatingIPProjectQuota)
    (ar : AdmissionReview) (fip : FloatingIP) (pool : FloatingIPPool)
    (ipAddr : String) (aIP startIP endIP x : List Nat) (subnet : IPNet)
    (plbc : FloatingIPProjectQuota) (q : Int)
    (hgp : getPool fip.Spec.FloatingIPPool = .ok pool)
    (hip : fip.Spec.IPAddr = some ipAddr)
    (hpi : parseIP ipAddr = some aIP)
    (hcidr : parseCIDR pool.Spec.IPConfig.Subnet = some (x, subnet))
    (hc : containsIP subnet aIP = true)
    (hps : parseIP pool.Spec.IPConfig.Pool.Start = some startIP)
    (hpe : parseIP pool.Spec.IPConfig.Pool.End = some endIP)
    (hr : ipOutsideRange aIP startIP endIP = false)
    (hx : ipAddr ∉ pool.Spec.IPConfig.Pool.Exclude)
    (ha : (pool.Status.Allocated.lookup ipAddr).isSome = false)
    (hgq : getQuota (projectIDOf fip) = .ok plbc)
    (hq : plbc.Spec.FloatingIPQuota.lookup fip.Spec.FloatingIPPool = some q)
    (hu : quotaUsage plbc fip.Spec.FloatingIPPool < q) :
    validateFloatingIP getPool getQuota ar fip =
      { UID := ar.Request.UID, Allowed := true, Result := none } := by
  unfold validateFloatingIP quotaStage
  simp [hgp, hip, hpi, hcidr, hc, hps, hpe, hr, hx, ha, hgq, hq, not_le.mpr hu]

/-- C2 amended-claim witness at the test fixtures. -/
theorem C2_valid_ip_with_quota_allowed_witness :
    validateFloatingIP testGP (testGQ 0) testAR (testFIP (some "192.168.1.100")) =
      { UID := "test-uid", Allowed := true, Result := none } :=
  C2_valid_ip_with_quota_allowed testGP (testGQ 0) testAR (testFIP (some "192.168.1.100"))
    testPool "192.168.1.100" (v4InV6 ++ [192, 168, 1, 100])
    (v4InV6 ++ [192, 168, 1, 10]) (v4InV6 ++ [192, 168, 1, 200])
    [192, 168, 1, 0] ⟨[192, 168, 1, 0], [255, 255, 255, 0]⟩ (testQuota 0) 1
    (by decide) (by decide) (by decide) (by decide) (by decide) (by decide) (by decide)
    (by decide) (by decide) (by decide) (by decide) (by decide) (by decide)

/-- C3: whenever the pre-quota checks pass and the quota object defines a
quota `q` for the requested pool, the request is allowed exactly when the
used count (0 when the status entry is absent) is strictly below `q`; at
`used ≥ q` the validator denies with the exact message reporting both
numbers, so raising the used count from below `q` to at least `q` flips an
allow into that deny. -/
theorem C3_quota_stage_iff
    (getPool : String → GetResult FloatingIPPool)
    (getQuota : String → GetResult FloatingIPProjectQuota)
    (ar : AdmissionReview) (fip : FloatingIP)
    (plbc : FloatingIPProjectQuota) (q : Int)
    (hpre : (specPreQuotaChecks getPool fip).findSome? id = none)
    (hgq : getQuota (projectIDOf fip) = .ok plbc)
    (hq : plbc.Spec.FloatingIPQuota.lookup fip.Spec.FloatingIPPool = some q) :
    ((validateFloatingIP getPool getQuota ar fip).Allowed = true ↔
       quotaUsage plbc fip.Spec.FloatingIPPool < q) ∧
    (q ≤ quotaUsage plbc fip.Spec.FloatingIPPool →
       validateFloatingIP getPool getQuota ar fip =
         denyR ar.Request.UID ("quota exceeded for floatingippool " ++
           fip.Spec.FloatingIPPool ++ " in project " ++ projectIDOf fip ++
           ". Quota: " ++ toString q ++ ", Used: " ++
           toString (quotaUsage plbc fip.Spec.FloatingIPPool))) := by
  have hspec := validateFloatingIP_eq_spec getPool getQuota ar fip
  rw [hspec]
  unfold specValidateFloatingIP specFirstDeny specChecks
  rw [List.findSome?_append, hpre]
  unfold specQuotaChecks
  simp only [hgq, hq]
  by_cases hle : q ≤ quotaUsage plbc fip.Spec.FloatingIPPool
  · constructor
    · simp [hle, List.findSome?, not_lt.mpr hle]
    · intro _
      simp [hle, List.findSome?, denyR]
  · constructor
    · simp [hle, List.findSome?, not_le.mp hle]
    · intro h
      exact absurd h hle

/-- C3 witness at the test fixtures (quota 1, used 1). -/
theorem C3_quota_stage_iff_witness :
    ((validateFloatingIP testGP (testGQ 1) testAR (testFIP (some "192.168.1.100"))).Allowed =
        true ↔ quotaUsage (testQuota 1) "test-pool" < 1) ∧
    ((1 : Int) ≤ quotaUsage (testQuota 1) "test-pool" →
       validateFloatingIP testGP (testGQ 1) testAR (testFIP (some "192.168.1.100")) =
         denyR "test-uid" ("quota exceeded for floatingippool " ++ "test-pool" ++
           " in project " ++ projectIDOf (testFIP (some "192.168.1.100")) ++
           ". Quota: " ++ toString (1 : Int) ++ ", Used: " ++
           toString (quotaUsage (testQuota 1) "test-pool"))) :=
  C3_quota_stage_iff testGP (testGQ 1) testAR (testFIP (some "192.168.1.100"))
    (testQuota 1) 1 (by decide) (by decide) (by decide)

/-- C10: every admission response built by `validateFloatingIP` and by
`validateFloatingIPPool` echoes the UID of the incoming admission request,
on every input and lookup outcome. -/
theorem C10_uid_echoed :
    ∀ (getPool : String → GetResult FloatingIPPool)
      (getQuota : String → GetResult FloatingIPProjectQuota)
      (ar : AdmissionReview) (fip : FloatingIP) (fipPool : FloatingIPPool),
      (validateFloatingIP getPool getQuota ar fip).UID = ar.Request.UID ∧
      (validateFloatingIPPool ar fipPool).UID = ar.Request.UID := by
  intro getPool getQuota ar fip fipPool
  refine ⟨?_, validateFloatingIPPool_uid ar fipPool⟩
  rw [validateFloatingIP_eq_spec]
  unfold specValidateFloatingIP specFirstDeny
  cases (specChecks getPool getQuota fip).findSome? id with
  | none => rfl
  | some m => rfl

/-- Go `bytes.Compare` of a slice with itself is 0. -/
theorem bytesCompare_self (l : List Nat) : bytesCompare l l = 0 := by
  induction l with
  | nil => rfl
  | cons a as ih => simp [bytesCompare, lt_irrefl, ih]

/-- The family-aware ordering test never places an address after itself. -/
theorem startAfterEnd_self (a : List Nat) : startAfterEnd a a = false := by
  unfold startAfterEnd
  cases h : to4 a with
  | none => simp [bytesCompare_self]
  | some b => simp [bytesCompare_self]

/-- Helper: a deny produced by the exclude-list loop is a `denyR` of the
given UID. -/
theorem checkExcludeList_deny (uid : String) (subnet : IPNet)
    (subnetStr startStr endStr : String) (startIP endIP : List Nat) :
    ∀ (l : List String) (resp : AdmissionResponse),
      checkExcludeList uid subnet subnetStr startStr endStr startIP endIP l = some resp →
      ∃ m, resp = denyR uid m := by
  intro l
  induction l with
  | nil => intro resp h; simp [checkExcludeList] at h
  | cons x rest ih =>
    intro resp h
    unfold checkExcludeList at h
    cases hp : parseIP x with
    | none =>
      simp only [hp, Option.some.injEq] at h
      exact ⟨_, h.symm⟩
    | some ex =>
      simp only [hp] at h
      cases hc : containsIP subnet ex with
      | false =>
        simp [hc] at h
        exact ⟨_, h.symm⟩
      | true =>
        cases hr : ipOutsideRange ex startIP endIP with
        | true =>
          simp [hc, hr] at h
          exact ⟨_, h.symm⟩
        | false =>
          simp [hc, hr] at h
          exact ih resp h

/-- Helper: every `validateFloatingIPPool` response is either the allow
response or a `denyR` with a message, always echoing the request UID. -/
theorem validateFloatingIPPool_shape (ar : AdmissionReview) (fipPool : FloatingIPPool) :
    validateFloatingIPPool ar fipPool =
        { UID := ar.Request.UID, Allowed := true, Result := none } ∨
      ∃ m, validateFloatingIPPool ar fipPool = denyR ar.Request.UID m := by
  unfold validateFloatingIPPool
  cases hcidr : parseCIDR fipPool.Spec.IPConfig.Subnet with
  | none => exact Or.inr ⟨_, rfl⟩
  | some pr =>
    obtain ⟨x, subnet⟩ := pr
    cases hps : parseIP fipPool.Spec.IPConfig.Pool.Start with
    | none => exact Or.inr ⟨_, rfl⟩
    | some startIP =>
      cases hcs : containsIP subnet startIP with
      | false => simp [hcs]
      | true =>
        cases hpe : parseIP fipPool.Spec.IPConfig.Pool.End with
        | none => simp [hcs]
        | some endIP =>
          cases hce : containsIP subnet endIP with
          | false => simp [hcs, hce]
          | true =>
            cases hord : startAfterEnd startIP endIP with
            | true => simp [hcs, hce, hord]
            | false =>
              simp only [hcs, hce, hord, Bool.false_eq_true, if_false, not_true_eq_false,
                if_true]
              cases hex : checkExcludeList ar.Request.UID subnet fipPool.Spec.IPConfig.Subnet
                  fipPool.Spec.IPConfig.Pool.Start fipPool.Spec.IPConfig.Pool.End
                  startIP endIP fipPool.Spec.IPConfig.Pool.Exclude with
              | none => simp [hex]
              | some resp =>
                simp only [hex]
                obtain ⟨m, hm⟩ := checkExcludeList_deny _ _ _ _ _ _ _ _ _ hex
                exact Or.inr ⟨m, by rw [hm]⟩

/-- C8 counterexample: `c8pool` satisfies every hypothesis of the claim
(subnet parses, start and end parse and lie in the subnet) and has
start == end, yet `validateFloatingIPPool` denies it (its exclude entry
`bad` does not parse) — so "allows when start == end" is false as stated. -/
theorem C8_counterexample :
    c8pool.Spec.IPConfig.Pool.Start = c8pool.Spec.IPConfig.Pool.End ∧
    (parseCIDR c8pool.Spec.IPConfig.Subnet).isSome = true ∧
    parseIP c8pool.Spec.IPConfig.Pool.Start = some (v4InV6 ++ [192, 168, 1, 15]) ∧
    (parseCIDR c8pool.Spec.IPConfig.Subnet).map
      (fun pr => containsIP pr.2 (v4InV6 ++ [192, 168, 1, 15])) = some true ∧
    validateFloatingIPPool testAR c8pool =
      denyR "test-uid" "invalid excluded IP address format: bad" := by
  decide

/-- C8 (amended): for every pool whose subnet parses and whose start and
end parse and lie in the subnet, `validateFloatingIPPool` denies with the
ordering message when start is after end under the family-aware byte
comparison, and allows a start == end (single-address) pool provided the
exclude-list checks also pass (in particular when the exclude list is
empty). -/
theorem C8_start_end_ordering
    (ar : AdmissionReview) (fipPool : FloatingIPPool) (x : List Nat) (subnet : IPNet)
    (startIP endIP : List Nat)
    (hcidr : parseCIDR fipPool.Spec.IPConfig.Subnet = some (x, subnet))
    (hps : parseIP fipPool.Spec.IPConfig.Pool.Start = some startIP)
    (hcs : containsIP subnet startIP = true)
    (hpe : parseIP fipPool.Spec.IPConfig.Pool.End = some endIP)
    (hce : containsIP subnet endIP = true) :
    (startAfterEnd startIP endIP = true →
       validateFloatingIPPool ar fipPool =
         denyR ar.Request.UID ("start IP address " ++ fipPool.Spec.IPConfig.Pool.Start ++
           " must be less than or equal to end IP address " ++
           fipPool.Spec.IPConfig.Pool.End)) ∧
    (fipPool.Spec.IPConfig.Pool.Start = fipPool.Spec.IPConfig.Pool.End →
       checkExcludeList ar.Request.UID subnet fipPool.Spec.IPConfig.Subnet
           fipPool.Spec.IPConfig.Pool.Start fipPool.Spec.IPConfig.Pool.End startIP endIP
           fipPool.Spec.IPConfig.Pool.Exclude = none →
       validateFloatingIPPool ar fipPool =
         { UID := ar.Request.UID, Allowed := true, Result := none }) := by
  constructor
  · intro hord
    unfold validateFloatingIPPool
    simp [hcidr, hps, hcs, hpe, hce, hord]
  · intro hse hexc
    have heq : startIP = endIP := by
      rw [hse] at hps
      rw [hps] at hpe
      exact Option.some.inj hpe
    subst heq
    unfold validateFloatingIPPool
    simp [hcidr, hps, hcs, hpe, hce, startAfterEnd_self, hexc]

/-- C8 witness: a reversed range is denied with the ordering message and a
single-address pool with empty exclude list is allowed, applying the
amended statement at concrete pools. -/
theorem C8_start_end_ordering_witness :
    validateFloatingIPPool testAR
        { c8pool with
            Spec :=
              { IPConfig :=
                  { Subnet := "192.168.1.0/24",
                    Pool :=
                      { Start := "192.168.1.20", End := "192.168.1.10",
                        Exclude := [] } } } } =
      denyR "test-uid"
        "start IP address 192.168.1.20 must be less than or equal to end IP address 192.168.1.10" ∧
    validateFloatingIPPool testAR
        { c8pool with
            Spec :=
              { IPConfig :=
                  { Subnet := "192.168.1.0/24",
                    Pool :=
                      { Start := "192.168.1.15", End := "192.168.1.15",
                        Exclude := [] } } } } =
      { UID := "test-uid", Allowed := true, Result := none } :=
  ⟨(C8_start_end_ordering testAR _ [192, 168, 1, 0] ⟨[192, 168, 1, 0], [255, 255, 255, 0]⟩
      (v4InV6 ++ [192, 168, 1, 20]) (v4InV6 ++ [192, 168, 1, 10])
      (by decide) (by decide) (by decide) (by decide) (by decide)).1 (by decide),
    (C8_start_end_ordering testAR _ [192, 168, 1, 0] ⟨[192, 168, 1, 0], [255, 255, 255, 0]⟩
      (v4InV6 ++ [192, 168, 1, 15]) (v4InV6 ++ [192, 168, 1, 15])
      (by decide) (by decide) (by decide) (by decide) (by decide)).2 (by decide) (by decide)⟩

/-- C4 counterexample: a body that fails admission-review JSON decoding is
answered with HTTP 500 and a plain-text error body, not with a JSON
admission-review envelope, and a body such as `{}` that decodes into a
review with a nil `Request` makes the handler panic at the
`ar.Request.Object.Raw` dereference, leaving the request unanswered — so
the claim's "every POST body … never as a non-JSON or unanswered reply" is
false on the code on both counts. -/
theorem C4_counterexample :
    validateFloatingIPAdmission testGP (testGQ 0)
        (.decodeFail "unexpected EOF") =
      .plainText 500 "cannot decode AdmissionReview to json: unexpected EOF" ∧
    isJsonReview (validateFloatingIPAdmission testGP (testGQ 0)
      (.decodeFail "unexpected EOF")) = false ∧
    isJsonReview (validateFloatingIPPoolAdmission (.decodeFail "unexpected EOF")) = false ∧
    validateFloatingIPAdmission testGP (testGQ 0) .nilRequest = .unanswered ∧
    validateFloatingIPPoolAdmission .nilRequest = .unanswered ∧
    isJsonReview (validateFloatingIPAdmission testGP (testGQ 0) .nilRequest) = false ∧
    isJsonReview (validateFloatingIPPoolAdmission .nilRequest) = false := by
  decide

/-- C4 (amended): every successfully decoded body that carries a request
and whose object unmarshals is answered with a JSON admission-review
envelope whose response carries the allowed boolean and, on deny, a
message; bodies that fail decoding or unmarshalling are answered with
HTTP 500 and a plain-text error body rather than a JSON envelope; and a
body that decodes into a review with a nil request (such as `{}`) makes
the handler panic, so that request is left unanswered. -/
theorem C4_handler_reply_shape :
    (∀ (getPool : String → GetResult FloatingIPPool)
       (getQuota : String → GetResult FloatingIPProjectQuota)
       (ar : AdmissionReview) (fip : FloatingIP),
       validateFloatingIPAdmission getPool getQuota (.ok ar fip) =
         .jsonReview { ar with Response := some (validateFloatingIP getPool getQuota ar fip) }) ∧
    (∀ (getPool : String → GetResult FloatingIPPool)
       (getQuota : String → GetResult FloatingIPProjectQuota)
       (ar : AdmissionReview) (fip : FloatingIP),
       (validateFloatingIP getPool getQuota ar fip).Allowed = true ∨
         (validateFloatingIP getPool getQuota ar fip).Result.isSome = true) ∧
    (∀ (ar : AdmissionReview) (fipPool : FloatingIPPool),
       validateFloatingIPPoolAdmission (.ok ar fipPool) =
         .jsonReview { ar with Response := some (validateFloatingIPPool ar fipPool) }) ∧
    (∀ (ar : AdmissionReview) (fipPool : FloatingIPPool),
       (validateFloatingIPPool ar fipPool).Allowed = true ∨
         (validateFloatingIPPool ar fipPool).Result.isSome = true) ∧
    (∀ (getPool : String → GetResult FloatingIPPool)
       (getQuota : String → GetResult FloatingIPProjectQuota) (e : String),
       validateFloatingIPAdmission getPool getQuota (.decodeFail e) =
         .plainText 500 ("cannot decode AdmissionReview to json: " ++ e)) ∧
    (∀ (getPool : String → GetResult FloatingIPPool)
       (getQuota : String → GetResult FloatingIPProjectQuota)
       (ar : AdmissionReview) (e : String),
       validateFloatingIPAdmission getPool getQuota (.unmarshalFail ar e) =
         .plainText 500 ("cannot unmarshal json to FloatingIP: " ++ e)) ∧
    (∀ (e : String),
       validateFloatingIPPoolAdmission (AdmissionBody.decodeFail e) =
         .plainText 500 ("cannot decode AdmissionReview to json: " ++ e)) ∧
    (∀ (ar : AdmissionReview) (e : String),
       validateFloatingIPPoolAdmission (.unmarshalFail ar e) =
         .plainText 500 ("cannot unmarshal json to FloatingIPPool: " ++ e)) ∧
    (∀ (getPool : String → GetResult FloatingIPPool)
       (getQuota : String → GetResult FloatingIPProjectQuota),
       validateFloatingIPAdmission getPool getQuota .nilRequest = .unanswered) ∧
    validateFloatingIPPoolAdmission (AdmissionBody.nilRequest) = .unanswered := by
  refine ⟨fun _ _ _ _ => rfl, ?_, fun _ _ => rfl, ?_, fun _ _ _ => rfl, fun _ _ _ _ => rfl,
    fun _ => rfl, fun _ _ => rfl, fun _ _ => rfl, rfl⟩
  · intro getPool getQuota ar fip
    rw [validateFloatingIP_eq_spec]
    unfold specValidateFloatingIP specFirstDeny
    cases (specChecks getPool getQuota fip).findSome? id with
    | none => exact Or.inl rfl
    | some m => exact Or.inr rfl
  · intro ar fipPool
    rcases validateFloatingIPPool_shape ar fipPool with h | ⟨m, hm⟩
    · rw [h]; exact Or.inl rfl
    · rw [hm]; exact Or.inr rfl

example :
    validateFloatingIPPool testAR
      { testPool with
          Spec :=
            { IPConfig :=
                { Subnet := "192.168.1.0/24",
                  Pool :=
                    { Start := "192.168.1.20", End := "192.168.1.10",
                      Exclude := [] } } } } =
    denyR "test-uid"
      "start IP address 192.168.1.20 must be less than or equal to end IP address 192.168.1.10" := by
  decide


/-! Certificate lifecycle model (pkg/config and pkg/scheduler).  The byte
contents handled by the lifecycle (PEM blocks, X.509 certificates, RSA
keys) live in external libraries; they are modelled by `BlobKind`, which
records exactly the distinctions the webhook's code observes: emptiness,
PEM-decodability, X.509-parsability and the certificate's not-after
timestamp (in minutes).  Kubernetes API failures are injected through a
`LifeEnv` record; cluster state (the TLS secret and the CSR object) is the
explicit `ConfigState`. -/

example : GetCertExpireDate (some [("tls.crt", .certPem 5), ("tls.key", .keyPem)]) =
    .ok 5 := by decide

/-- C5: `GetCertExpireDate` returns the stored certificate's not-after
timestamp on success and returns a certificate-unavailable error when the
certificate field is missing or empty — but on bytes that fail PEM
decoding it formats `err.Error()` with a nil `err` and crashes with a
nil-pointer dereference instead of returning the intended error, so
"never by crashing" fails on the code. -/
theorem C5_getExpiration_cases :
    GetCertExpireDate (some [("tls.crt", .certPem 777), ("tls.key", .keyPem)]) =
      .ok 777 ∧
    GetCertExpireDate none =
      .errMsg ("cannot while fetching TLS data: " ++ "tls.crt not found in secret") ∧
    GetCertExpireDate (some [("tls.key", .keyPem)]) =
      .errMsg ("cannot while fetching TLS data: " ++ "tls.crt not found in secret") ∧
    GetCertExpireDate (some [("tls.crt", .emptyBlob), ("tls.key", .keyPem)]) =
      .errMsg "certificate is empty" ∧
    GetCertExpireDate (some [("tls.crt", .rawBlob), ("tls.key", .keyPem)]) =
      .nilDeref :=
  ⟨rfl, rfl, rfl, rfl, rfl⟩

/-- C6 counterexample: at webhook name `my-webhook` in namespace
`my-namespace`, the generated DNS SAN list is
`[my-webhook, my-webhook.my-namespace, my-webhook.my-namespace.svc,
my-webhook.my-namespace.cluster.local]`; the claim's fourth entry
`my-webhook.my-namespace.svc.cluster.local` is not in it (the code formats
`%s.%s.cluster.local`, without `.svc`). -/
theorem C6_counterexample :
    (certRequestTemplate "my-webhook" "my-namespace").DNSNames =
      ["my-webhook", "my-webhook.my-namespace", "my-webhook.my-namespace.svc",
       "my-webhook.my-namespace.cluster.local"] ∧
    "my-webhook.my-namespace.svc.cluster.local" ∉
      (certRequestTemplate "my-webhook" "my-namespace").DNSNames := by
  decide

/-- C6 (amended): for every webhook name and namespace the generated
request has Common Name `system:node:<name>.<namespace>.svc`, Organization
`system:nodes`, SHA-256-with-RSA signature, and DNS SAN set exactly
{name, name.namespace, the CSR resource name name.namespace.svc,
name.namespace.cluster.local} — the last entry lacking the `.svc` label the
claim puts there. -/
theorem C6_cert_identity (n ns : String) :
    (certRequestTemplate n ns).CommonName = "system:node:" ++ n ++ "." ++ ns ++ ".svc" ∧
    (certRequestTemplate n ns).Organization = ["system:nodes"] ∧
    (certRequestTemplate n ns).SignatureAlgorithm = .SHA256WithRSA ∧
    ∀ d, d ∈ (certRequestTemplate n ns).DNSNames ↔
      (d = n ∨ d = n ++ "." ++ ns ∨ d = csrNameOf n ns ∨
        d = n ++ "." ++ ns ++ ".cluster.local") := by
  refine ⟨by simp [certRequestTemplate, String.append_assoc], rfl, rfl, ?_⟩
  intro d
  simp [certRequestTemplate]

/-- C7 counterexample: at 90 seconds past expiration (duration
-90000000000 ns, minutesUntilExpiration = -1.5) and renewal window -2, Go's
truncation toward zero gives -1 and the code arms a 2-minute timer, while
the claim's floor-based formula gives the value 1 (which is ≥ 1, so the
claim asserts the interval is exactly 1). -/
theorem C7_counterexample :
    schedTicks (-90000000000) (-2) = 2 ∧
    Int.tdiv (-90000000000) 60000000000 = -1 ∧
    ⌊((-90000000000 : Int) : ℚ) / 60000000000⌋ = -2 ∧
    (⌊((-90000000000 : Int) : ℚ) / 60000000000⌋ - (-2) + 1 : Int) = 1 ∧
    (2 : Int) ≠ 1 := by
  have hfl : ⌊((-90000000000 : Int) : ℚ) / 60000000000⌋ = -2 := by
    have h := Rat.floor_intCast_div_natCast (-90000000000) 60000000000
    norm_num at h
    convert h using 2
    norm_num
  refine ⟨by decide, by decide, hfl, by rw [hfl]; decide, by decide⟩

/-- C7 (amended): the armed interval is always at least 1 minute, and it
equals the clamped formula with truncation toward zero
(`int64(difference.Minutes())`); for a nonnegative duration the truncation
coincides with the claim's floor, so the interval is
`max 1 (floor(minutesUntilExpiration) - W + 1)` there. -/
theorem C7_interval_clamped (d W : Int) :
    1 ≤ schedTicks d W ∧
    schedTicks d W = max 1 (Int.tdiv d 60000000000 - W + 1) ∧
    (0 ≤ d → schedTicks d W = max 1 (⌊(d : ℚ) / 60000000000⌋ - W + 1)) := by
  refine ⟨?_, ?_, ?_⟩
  · unfold schedTicks
    split <;> omega
  · unfold schedTicks
    split <;> omega
  · intro hd
    have hfl : ⌊(d : ℚ) / 60000000000⌋ = d / 60000000000 := by
      have h := Rat.floor_intCast_div_natCast d 60000000000
      norm_num at h
      convert h using 2
    have ht : Int.tdiv d 60000000000 = d / 60000000000 :=
      Int.tdiv_eq_ediv hd (by norm_num)
    rw [hfl, ← ht]
    unfold schedTicks
    split <;> omega

/-- C7 amended-claim witness: five minutes until expiration, window 2. -/
theorem C7_interval_clamped_witness :
    schedTicks 300000000000 2 =
      max 1 (⌊((300000000000 : Int) : ℚ) / 60000000000⌋ - 2 + 1) ∧
    (1 : Int) ≤ schedTicks 300000000000 2 :=
  ⟨(C7_interval_clamped 300000000000 2).2.2 (by norm_num),
   (C7_interval_clamped 300000000000 2).1⟩

/-- Helper: `writeTLSDataFromSecret` at the end of a pass never changes the
cluster state and only appends log lines. -/
theorem finishWrite_spec (env : LifeEnv) (st : ConfigState) (logs : List String) :
    ∃ extra, finishWrite env st logs = .finished st (logs ++ extra) := by
  cases h : getTLSDataFromSecret st.secret with
  | error e =>
    refine ⟨["cannot while fetching TLS data: " ++ e], ?_⟩
    unfold finishWrite
    rw [h]
  | ok pair =>
    by_cases hw : env.writeFilesFail = true
    · refine ⟨["error while writing private key file: " ++ env.errText], ?_⟩
      unfold finishWrite
      simp only [h]
      rw [if_pos hw]
    · refine ⟨[], ?_⟩
      unfold finishWrite
      simp only [h]
      rw [if_neg hw, List.append_nil]

/-- Helper: when one of the four issuance stages fails, certificate
generation returns the zero pair with the wrapped stage error and does not
touch the secret. -/
theorem generate_fail_spec (env : LifeEnv) (st : ConfigState)
    (h : genStageFails env = true) :
    ∃ st2 e, generateTLSKeyAndCert env st = (st2, .error e) ∧ st2.secret = st.secret ∧
      isGenStageErr env e = true := by
  by_cases hk : env.keygenFail = true
  · refine ⟨st, "error while generating key: " ++ env.errText, ?_, rfl, ?_⟩
    · simp [generateTLSKeyAndCert, hk]
    · simp [isGenStageErr]
  · by_cases hc : env.csrCreateFail = true
    · refine ⟨st, "error while creating signing request: " ++ env.errText, ?_, rfl, ?_⟩
      · simp [generateTLSKeyAndCert, hk, hc]
      · simp [isGenStageErr]
    · by_cases ha2 : env.approveFail = true
      · refine ⟨{ st with csr := true },
          "error while approving signing request: " ++ env.errText, ?_, rfl, ?_⟩
        · simp [generateTLSKeyAndCert, hk, hc, ha2]
        · simp [isGenStageErr]
      · by_cases hg : env.csrGetFail = true
        · refine ⟨{ st with csr := true },
            "error while getting the updated signing request: " ++ env.errText, ?_, rfl, ?_⟩
          · simp [generateTLSKeyAndCert, hk, hc, ha2, hg]
          · simp [isGenStageErr]
        · exfalso
          unfold genStageFails at h
          simp [hk, hc, ha2, hg] at h

/-- Helper: when an issuance stage fails, the renewal path returns an error
before the old secret is deleted; the error is the stage error unless a
stale-CSR deletion failed first. -/
theorem renew_fail_spec (env : LifeEnv) (st : ConfigState)
    (h : genStageFails env = true) :
    ∃ st2 m, renewTLSPair env st = (st2, .err m) ∧ st2.secret = st.secret ∧
      (isGenStageErr env m = true ∨ (st.csr = true ∧ env.deleteCsrFail = true)) := by
  by_cases hcsr : st.csr = true
  · by_cases hdel : env.deleteCsrFail = true
    · refine ⟨st, env.errText, ?_, rfl, Or.inr ⟨hcsr, hdel⟩⟩
      simp [renewTLSPair, hcsr, hdel]
    · obtain ⟨st2, e, hgen, hsec, hmsg⟩ :=
        generate_fail_spec env { st with csr := false } h
      refine ⟨st2, e, ?_, hsec, Or.inl hmsg⟩
      simp [renewTLSPair, hcsr, hdel, hgen]
  · obtain ⟨st2, e, hgen, hsec, hmsg⟩ := generate_fail_spec env st h
    refine ⟨st2, e, ?_, hsec, Or.inl hmsg⟩
    simp [renewTLSPair, hcsr, hgen]

/-- C9: if any issuance stage (key/CSR generation, CSR create, CSR
approval, signed-certificate read-back) fails during a lifecycle pass that
finishes, the persisted secret is exactly what it was before the pass — no
partial identity is created or substituted — and whenever the pass actually
attempted generation (bootstrap with no stored identity, or a due renewal
not aborted by a failing stale-CSR deletion) the stage's wrapped error
appears in the logged errors. -/
theorem C9_issuance_failure_keeps_secret (env : LifeEnv) (st : ConfigState) (period : Int)
    (st2 : ConfigState) (logs : List String)
    (hfail : genStageFails env = true)
    (hrun : runPass env st period = .finished st2 logs) :
    st2.secret = st.secret ∧
    ((st.secret = none ∨ (renewalDue env st period = true ∧
        (st.csr = false ∨ env.deleteCsrFail = false))) →
      ∃ m, m ∈ logs ∧ isGenStageErr env m = true) := by
  cases hsec : st.secret with
  | some data =>
    unfold runPass at hrun
    rw [hsec] at hrun
    simp only [Option.isSome_some, if_true] at hrun
    unfold renewalDue
    rw [hsec]
    cases hexp : GetCertExpireDate (some data) with
    | nilDeref =>
      rw [hexp] at hrun
      dsimp only at hrun
      cases hrun
    | errMsg e =>
      rw [hexp] at hrun
      dsimp only at hrun
      obtain ⟨extra, hfw⟩ := finishWrite_spec env st [e]
      rw [hfw] at hrun
      injection hrun with h1 h2
      constructor
      · rw [← h1, hsec]
      · intro hcond
        rcases hcond with hnone | ⟨hdue, _⟩
        · simp at hnone
        · simp at hdue
    | ok expire =>
      rw [hexp] at hrun
      dsimp only at hrun
      by_cases hlt : expire - env.now < period
      · rw [if_pos hlt] at hrun
        obtain ⟨st1, m, hrenew, hs1, hmsg⟩ := renew_fail_spec env st hfail
        rw [hrenew] at hrun
        dsimp only at hrun
        obtain ⟨extra, hfw⟩ := finishWrite_spec env st1 [m]
        rw [hfw] at hrun
        injection hrun with h1 h2
        constructor
        · rw [← h1, hs1, hsec]
        · intro hcond
          rcases hmsg with hm | ⟨hcsr, hdel⟩
          · exact ⟨m, by rw [← h2]; simp, hm⟩
          · rcases hcond with hnone | ⟨_, hnot⟩
            · simp at hnone
            · rcases hnot with hnot | hnot
              · rw [hcsr] at hnot; cases hnot
              · rw [hdel] at hnot; cases hnot
      · rw [if_neg hlt] at hrun
        obtain ⟨extra, hfw⟩ := finishWrite_spec env st []
        rw [hfw] at hrun
        injection hrun with h1 h2
        constructor
        · rw [← h1, hsec]
        · intro hcond
          rcases hcond with hnone | ⟨hdue, _⟩
          · simp at hnone
          · simp [hlt] at hdue
  | none =>
    unfold runPass at hrun
    simp only [hsec, Option.isSome_none, Bool.false_eq_true, if_false] at hrun
    by_cases hcsr : st.csr = true
    · by_cases hdel : env.deleteCsrFail = true
      · simp only [hcsr, hdel, if_true] at hrun
        obtain ⟨stg, e, hgen, hsg, hm⟩ := generate_fail_spec env st hfail
        rw [hgen] at hrun
        dsimp only at hrun
        simp only [createSecret] at hrun
        obtain ⟨extra, hfw⟩ := finishWrite_spec env stg
          ([env.errText] ++ [e, "unable to marshal private key: " ++ "x509: unknown key type"])
        rw [hfw] at hrun
        injection hrun with h1 h2
        refine ⟨by rw [← h1, hsg]; simp [hsec], fun _ => ⟨e, ?_, hm⟩⟩
        rw [← h2]; simp
      · simp only [hcsr, hdel, Bool.false_eq_true, if_true, if_false] at hrun
        obtain ⟨stg, e, hgen, hsg, hm⟩ :=
          generate_fail_spec env { secret := none, csr := false } hfail
        rw [hgen] at hrun
        dsimp only at hrun
        simp only [createSecret] at hrun
        obtain ⟨extra, hfw⟩ := finishWrite_spec env stg
          ([] ++ [e, "unable to marshal private key: " ++ "x509: unknown key type"])
        rw [hfw] at hrun
        injection hrun with h1 h2
        refine ⟨by rw [← h1, hsg], fun _ => ⟨e, ?_, hm⟩⟩
        rw [← h2]; simp
    · simp only [hcsr, Bool.false_eq_true, if_false] at hrun
      obtain ⟨stg, e, hgen, hsg, hm⟩ := generate_fail_spec env st hfail
      rw [hgen] at hrun
      dsimp only at hrun
      simp only [createSecret] at hrun
      obtain ⟨extra, hfw⟩ := finishWrite_spec env stg
        ([] ++ [e, "unable to marshal private key: " ++ "x509: unknown key type"])
      rw [hfw] at hrun
      injection hrun with h1 h2
      refine ⟨by rw [← h1, hsg]; simp [hsec], fun _ => ⟨e, ?_, hm⟩⟩
      rw [← h2]; simp

/-- C9 witness: bootstrap pass (no stored secret, no stale CSR) with a
failing approval stage leaves the secret absent and logs the approval
error. -/
theorem C9_issuance_failure_keeps_secret_witness :
    (runPass
        { keygenFail := false, csrCreateFail := false, approveFail := true,
          csrGetFail := false, deleteCsrFail := false, deleteSecretFail := false,
          createSecretFail := false, writeFilesFail := false,
          signedCert := .certPem 9, errText := "boom", now := 0 }
        { secret := none, csr := false } 43200 =
      .finished { secret := none, csr := true }
        ["error while approving signing request: boom",
         "unable to marshal private key: " ++ "x509: unknown key type",
         "cannot while fetching TLS data: " ++ "tls.crt not found in secret"]) ∧
    ({ secret := none, csr := true } : ConfigState).secret =
      ({ secret := none, csr := false } : ConfigState).secret ∧
    (∃ m, m ∈ ["error while approving signing request: boom",
         "unable to marshal private key: " ++ "x509: unknown key type",
         "cannot while fetching TLS data: " ++ "tls.crt not found in secret"] ∧
      isGenStageErr
        { keygenFail := false, csrCreateFail := false, approveFail := true,
          csrGetFail := false, deleteCsrFail := false, deleteSecretFail := false,
          createSecretFail := false, writeFilesFail := false,
          signedCert := .certPem 9, errText := "boom", now := 0 } m = true) := by
  have hrun : runPass
      { keygenFail := false, csrCreateFail := false, approveFail := true,
        csrGetFail := false, deleteCsrFail := false, deleteSecretFail := false,
        createSecretFail := false, writeFilesFail := false,
        signedCert := .certPem 9, errText := "boom", now := 0 }
      { secret := none, csr := false } 43200 =
      .finished { secret := none, csr := true }
        ["error while approving signing request: boom",
         "unable to marshal private key: " ++ "x509: unknown key type",
         "cannot while fetching TLS data: " ++ "tls.crt not found in secret"] := by
    decide
  have h := C9_issuance_failure_keeps_secret _ _ 43200 _ _ (by decide) hrun
  exact ⟨hrun, h.1, h.2 (Or.inl rfl)⟩

end Rfm

